import Mathlib

/-!
Verification development for `megatron/core/transformer/mlp.py`.

The MLP block is embedded shallowly: tensors of shape [sequence, batch, width]
become nested lists of rationals, the elementwise activation functions become
tagged values carrying a rational function (the tag mirrors Python function-object
identity, which the code compares with `==`), fallible code returns `Except`,
and the construction in `MLP.__init__` becomes `mkMLP`.  The whole development
is parameterized by `geluFn : ℚ → ℚ`, an arbitrary interpretation of the
transcendental GELU function; no claim depends on its numeric values.

The tensor-parallel linear layers (`TEColumnParallelLinear`,
`TERowParallelLinear`), the fused kernel `bias_gelu_impl` and the recomputation
primitive `tensor_parallel.checkpoint` are consumed, not defined, by `mlp.py`;
they are modelled from the spec where noted, at single-worker granularity
(the sharding is the primitives' responsibility per the spec).
-/

/-- A tensor of shape [sequence, batch, width]: the outer list is the sequence
axis, the middle list the batch axis, the inner list the last (hidden) axis. -/
abbrev Tensor3 : Type := List (List (List ℚ))

/-- An activation function value as configured: either the standard GELU
function object `F.gelu`, or any other function object.  The constructor tag
mirrors Python function-object identity (the code tests
`self.activation_func == F.gelu`); the payload carries the elementwise
semantics. -/
inductive ActivationFunc : Type where
  | gelu : ActivationFunc
  | custom : (ℚ → ℚ) → ActivationFunc

/-- Elementwise semantics of a configured activation function, given an
interpretation `geluFn` of the standard GELU. -/
def ActivationFunc.eval (geluFn : ℚ → ℚ) : ActivationFunc → ℚ → ℚ
  | .gelu => geluFn
  | .custom f => f

/-- The configuration record consumed by `MLP.__init__` (the fields of
`TransformerConfig` that `mlp.py` reads).  `recompute_granularity` is an
optional string, as in the Python config.  The init methods give the entries
of the weight matrices the parallel linear layers build. -/
structure TransformerConfig : Type where
  hidden_size : ℕ
  ffn_hidden_size : ℕ
  gated_linear_unit : Bool
  add_bias_linear : Bool
  activation_func : ActivationFunc
  bias_gelu_fusion : Bool
  recompute_granularity : Option String
  recompute_non_linear_layer_in_mlp : Bool
  init_method : ℕ → ℕ → ℚ
  output_layer_init_method : ℕ → ℕ → ℚ

/-- Dot product of two rational vectors. -/
def dot (r v : List ℚ) : ℚ := (List.zipWith (fun a b => a * b) r v).sum

/-- Matrix-vector product: one dot product per weight row. -/
def matvec (W : List (List ℚ)) (v : List ℚ) : List ℚ := W.map (fun r => dot r v)

/-- Modelled from the spec: the parallel-linear-layer primitive
(`TEColumnParallelLinear` / `TERowParallelLinear`, not among the sources here).
Construction-time parameters: input width, output width, whether to hold a
bias, initialization strategy; `skip_bias_add=True` is the deferred-bias
convention, so `forward` returns the bias separately instead of adding it. -/
structure ParallelLinear : Type where
  input_size : ℕ
  output_size : ℕ
  bias : Bool
  weight : List (List ℚ)
  bias_vec : List ℚ

/-- Modelled from the spec: building a parallel linear layer allocates a
weight matrix of shape [output, input] from the init method and a zero bias
vector of the output width. -/
def ParallelLinear.make (input_size output_size : ℕ) (init : ℕ → ℕ → ℚ)
    (bias : Bool) : ParallelLinear :=
  ⟨input_size, output_size, bias,
   (List.range output_size).map (fun i => (List.range input_size).map (init i)),
   List.replicate output_size 0⟩

/-- Modelled from the spec: `forward(input) -> (output, optional_bias)`; the
output applies the weight matrix along the last axis, and the bias is returned
separately (deferred) exactly when the layer holds one. -/
def ParallelLinear.forward (L : ParallelLinear) (x : Tensor3) :
    Tensor3 × Option (List ℚ) :=
  (x.map (fun m => m.map (matvec L.weight)),
   if L.bias then some L.bias_vec else none)

/-- Adding a 1-D bias to a tensor broadcasts it along the last axis
(`intermediate_parallel + bias_parallel`). -/
def addBias (x : Tensor3) (bias : List ℚ) : Tensor3 :=
  x.map (fun m => m.map (fun v => List.zipWith (fun a b => a + b) v bias))

/-- Semantics of `torch.chunk(x, 2, dim=-1)` on the last axis: two chunks, the first of
size ⌈n/2⌉ and the second the rest (equal halves when n is even). -/
def chunk2 (v : List ℚ) : List ℚ × List ℚ :=
  (v.take ((v.length + 1) / 2), v.drop ((v.length + 1) / 2))

/-- The gating closure defined in `MLP.__init__` when
`config.gated_linear_unit` holds, acting on one last-axis vector:
`x = torch.chunk(x, 2, dim=-1); return self.config.activation_func(x[0]) * x[1]`. -/
def glu (geluFn : ℚ → ℚ) (f : ActivationFunc) (v : List ℚ) : List ℚ :=
  List.zipWith (fun a b => a * b)
    ((chunk2 v).1.map (f.eval geluFn)) (chunk2 v).2

/-- The function object bound to `self.activation_func` by `MLP.__init__`:
either the configured activation itself, or the freshly created `glu` closure
wrapping it.  A fresh closure is never `==` to `F.gelu`, which the tag
records. -/
inductive InstActivation : Type where
  | plain : ActivationFunc → InstActivation
  | gluClosure : ActivationFunc → InstActivation

/-- The identity test `self.activation_func == F.gelu`: true exactly when the
bound object is the configured `F.gelu` function itself (a closure or any
other function object compares unequal). -/
def InstActivation.isFGelu : InstActivation → Bool
  | .plain .gelu => true
  | _ => false

/-- Applying the bound activation object to a whole tensor: a plain activation
acts elementwise; the `glu` closure acts per last-axis vector. -/
def InstActivation.apply (geluFn : ℚ → ℚ) : InstActivation → Tensor3 → Tensor3
  | .plain f, x => x.map (fun m => m.map (fun v => v.map (f.eval geluFn)))
  | .gluClosure f, x => x.map (fun m => m.map (glu geluFn f))

/-- Modelled from the spec: the fused-kernel primitive `bias_gelu_impl` from
`megatron.core.fusions.fused_bias_gelu` (not among the sources here):
`apply(tensor, bias) -> tensor`, bias addition fused with the one fixed
activation function, the standard GELU. -/
def bias_gelu_impl (geluFn : ℚ → ℚ) (x : Tensor3) (bias : List ℚ) : Tensor3 :=
  (addBias x bias).map (fun m => m.map (fun v => v.map geluFn))

/-- Modelled from the spec: the recomputation primitive
`tensor_parallel.checkpoint(function, determinism_flag, *args)` (not among the
sources here) runs the function on the arguments during the forward pass and
returns results matching the function's return arity; recomputation only
changes which pass performs the computation, not the forward results.
One-argument form. -/
def checkpoint {α β : Type} (f : α → β) (_distribute_saved_activations : Bool)
    (a : α) : β := f a

/-- Modelled from the spec: the recomputation primitive, two-argument form. -/
def checkpoint2 {α β γ : Type} (f : α → β → γ)
    (_distribute_saved_activations : Bool) (a : α) (b : β) : γ := f a b

/-- The state built by `MLP.__init__`. -/
structure MLP : Type where
  config : TransformerConfig
  linear_fc1 : ParallelLinear
  activation_func : InstActivation
  linear_fc2 : ParallelLinear
  checkpoint_mlp : Bool
  recompute_non_linear_layer_in_mlp : Bool

/-- The constructor `MLP.__init__`: doubles the fc1 output width when gated, builds the two
parallel linear layers, binds `self.activation_func` (the `glu` closure when
gated), and derives the two recomputation toggles from the configuration. -/
def mkMLP (config : TransformerConfig) : MLP :=
  ⟨config,
   ParallelLinear.make config.hidden_size
     (if config.gated_linear_unit then 2 * config.ffn_hidden_size
      else config.ffn_hidden_size)
     config.init_method config.add_bias_linear,
   (if config.gated_linear_unit then .gluClosure config.activation_func
    else .plain config.activation_func),
   ParallelLinear.make config.ffn_hidden_size config.hidden_size
     config.output_layer_init_method config.add_bias_linear,
   (config.recompute_granularity == some "selective_mlp_only"
     || config.recompute_granularity == some "selective_both"),
   config.recompute_non_linear_layer_in_mlp⟩

/-- The inner function `_apply_non_linear` of `MLP._forward` (closure over
`self` lifted to an explicit argument).  The fused branch asserts
`add_bias_linear is True` and `self.activation_func == F.gelu` in that order;
a failed assertion is an error.  The non-fused branch adds the bias when
present and applies the bound activation. -/
def apply_non_linear (geluFn : ℚ → ℚ) (m : MLP) (intermediate_parallel : Tensor3)
    (bias_parallel : Option (List ℚ)) : Except String Tensor3 :=
  if m.config.bias_gelu_fusion then
    if m.config.add_bias_linear then
      if m.activation_func.isFGelu then
        match bias_parallel with
        | some b => .ok (bias_gelu_impl geluFn intermediate_parallel b)
        | none => .error "bias_gelu_impl applied to an absent bias"
      else .error "assertion failed: self.activation_func == F.gelu"
    else .error "assertion failed: self.config.add_bias_linear is True"
  else
    .ok (m.activation_func.apply geluFn
      (match bias_parallel with
       | some b => addBias intermediate_parallel b
       | none => intermediate_parallel))

/-- The method `MLP._forward`: fc1, then the nonlinearity (checkpointed when the
non-linear-only recompute toggle is set), then fc2. -/
def MLP.forwardImpl (geluFn : ℚ → ℚ) (m : MLP) (hidden_states : Tensor3) :
    Except String (Tensor3 × Option (List ℚ)) :=
  let intermediate_parallel := (m.linear_fc1.forward hidden_states).1
  let bias_parallel := (m.linear_fc1.forward hidden_states).2
  match (if m.recompute_non_linear_layer_in_mlp then
           checkpoint2 (apply_non_linear geluFn m) false
             intermediate_parallel bias_parallel
         else
           apply_non_linear geluFn m intermediate_parallel bias_parallel) with
  | .ok ip => .ok (m.linear_fc2.forward ip)
  | .error e => .error e

/-- A result of the checkpointed `_custom_function`: a two-element tuple when
the bias is present, a bare tensor otherwise. -/
inductive CkptResults : Type where
  | pair : Tensor3 → List ℚ → CkptResults
  | single : Tensor3 → CkptResults
deriving DecidableEq

/-- The inner `_custom_function` of `MLP.forward`: runs `_forward` and drops
the bias slot when the bias is `None`, because the checkpointing machinery
cannot represent an output paired with `None`. -/
def MLP.customFunction (geluFn : ℚ → ℚ) (m : MLP) (hidden_states : Tensor3) :
    Except String CkptResults :=
  match m.forwardImpl geluFn hidden_states with
  | .ok (output, some output_bias) => .ok (.pair output output_bias)
  | .ok (output, none) => .ok (.single output)
  | .error e => .error e

/-- The method `MLP.forward`: when the full-MLP recompute toggle is set, checkpoints
`_custom_function` and normalizes its result back to a pair (a bare result
becomes `(result, None)`); otherwise delegates to `_forward`. -/
def MLP.forward (geluFn : ℚ → ℚ) (m : MLP) (hidden_states : Tensor3) :
    Except String (Tensor3 × Option (List ℚ)) :=
  if m.checkpoint_mlp then
    match checkpoint (m.customFunction geluFn) false hidden_states with
    | .ok (.pair o b) => .ok (o, some b)
    | .ok (.single o) => .ok (o, none)
    | .error e => .error e
  else
    m.forwardImpl geluFn hidden_states

/-- An `MLP` state with both recomputation toggles cleared, other state
unchanged: the reference point for recomputation transparency. -/
def MLP.togglesOff (m : MLP) : MLP :=
  { m with checkpoint_mlp := false, recompute_non_linear_layer_in_mlp := false }

/-- Shape predicate on the outer two axes: `s` sequence rows of `b` batch
entries each. -/
def isGrid (x : Tensor3) (s b : ℕ) : Bool :=
  x.length == s && x.all (fun m => m.length == b)

/-- Every last-axis vector of the tensor has width `c`. -/
def innermostAll (x : Tensor3) (c : ℕ) : Bool :=
  x.all (fun m => m.all (fun v => v.length == c))

/-- The tensor has shape [s, b, c]. -/
def isShape (x : Tensor3) (s b c : ℕ) : Bool :=
  isGrid x s b && innermostAll x c

/-! ## Helper lemmas -/

/-- Forward-pass semantics of the recomputation primitive: it runs the
function (the memory behavior is not part of the value semantics). -/
theorem checkpoint_run {α β : Type} (f : α → β) (d : Bool) (a : α) :
    checkpoint f d a = f a := rfl

/-- Forward-pass semantics of the two-argument recomputation primitive. -/
theorem checkpoint2_run {α β γ : Type} (f : α → β → γ) (d : Bool) (a : α)
    (b : β) : checkpoint2 f d a b = f a b := rfl

/-- The method `MLP.forward` always computes the value of `MLP._forward`: the
checkpointed wrapper repackages and then unpacks the same result. -/
theorem forward_eq_impl (geluFn : ℚ → ℚ) (m : MLP) (h : Tensor3) :
    m.forward geluFn h = m.forwardImpl geluFn h := by
  unfold MLP.forward
  cases hc : m.checkpoint_mlp
  · simp
  · simp only [if_pos rfl, checkpoint, MLP.customFunction]
    cases hi : m.forwardImpl geluFn h with
    | error e => rfl
    | ok p =>
      rcases p with ⟨o, ob⟩
      cases ob <;> rfl

/-- The method `MLP._forward` does not depend on the recompute toggles except through
the (value-transparent) checkpoint wrapper. -/
theorem forwardImpl_togglesOff (geluFn : ℚ → ℚ) (m : MLP) (h : Tensor3) :
    m.forwardImpl geluFn h = m.togglesOff.forwardImpl geluFn h := by
  unfold MLP.forwardImpl MLP.togglesOff
  cases ht : m.recompute_non_linear_layer_in_mlp <;> rfl

/-- If the nonlinearity stage fails uniformly with error `e`, then
`_forward` fails with `e`. -/
theorem forwardImpl_error (geluFn : ℚ → ℚ) (m : MLP) (h : Tensor3)
    (e : String)
    (he : ∀ x bp, apply_non_linear geluFn m x bp = .error e) :
    m.forwardImpl geluFn h = .error e := by
  unfold MLP.forwardImpl
  cases ht : m.recompute_non_linear_layer_in_mlp <;> simp [checkpoint2, he]

/-- If the nonlinearity stage fails uniformly with error `e`, then
`forward` fails with `e` on both the checkpointed and the direct path. -/
theorem forward_error (geluFn : ℚ → ℚ) (m : MLP) (h : Tensor3) (e : String)
    (he : ∀ x bp, apply_non_linear geluFn m x bp = .error e) :
    m.forward geluFn h = .error e := by
  rw [forward_eq_impl]
  exact forwardImpl_error geluFn m h e he

/-- Decomposition of a successful `_forward` run: some intermediate passed
the nonlinearity stage, and the result is fc2 applied to it. -/
theorem forwardImpl_ok (geluFn : ℚ → ℚ) (m : MLP) (h : Tensor3) (o : Tensor3)
    (ob : Option (List ℚ))
    (hf : m.forwardImpl geluFn h = .ok (o, ob)) :
    ∃ ip, apply_non_linear geluFn m (m.linear_fc1.forward h).1
            (m.linear_fc1.forward h).2 = .ok ip
      ∧ o = (m.linear_fc2.forward ip).1 ∧ ob = (m.linear_fc2.forward ip).2 := by
  unfold MLP.forwardImpl at hf
  cases ht : m.recompute_non_linear_layer_in_mlp <;>
    rw [ht] at hf <;>
    simp only [if_pos rfl, if_neg, Bool.false_eq_true, ite_false, ite_true,
      checkpoint2] at hf <;>
  · cases hap : apply_non_linear geluFn m (m.linear_fc1.forward h).1
        (m.linear_fc1.forward h).2 with
    | error e => rw [hap] at hf; exact absurd hf (by simp)
    | ok ip =>
      rw [hap] at hf
      simp only [Except.ok.injEq] at hf
      exact ⟨ip, rfl, congrArg Prod.fst hf.symm, congrArg Prod.snd hf.symm⟩

/-- Mapping a vector function over the last axis preserves the outer grid. -/
theorem isGrid_map_map (g : List ℚ → List ℚ) (x : Tensor3) (s b : ℕ) :
    isGrid (x.map (fun m => m.map g)) s b = isGrid x s b := by
  simp [isGrid, List.all_map, Function.comp_def]

/-- A matrix product along the last axis yields vectors of width the number
of weight rows, everywhere. -/
theorem innermostAll_matvec (W : List (List ℚ)) (x : Tensor3) :
    innermostAll (x.map (fun m => m.map (matvec W))) W.length = true := by
  simp [innermostAll, List.all_map, Function.comp_def, matvec]

/-! ## Claim theorems -/

/-- A configuration whose granularity selects MLP checkpointing and whose
non-linear recompute flag is also set. -/
def cfgC1 : TransformerConfig :=
  ⟨2, 4, false, true, .gelu, false, some "selective_mlp_only", true,
   fun _ _ => 0, fun _ _ => 0⟩

/-- C1 (counterexample): a constructed MLP instance can have both
recomputation toggles enabled at once — `checkpoint_mlp` and
`recompute_non_linear_layer_in_mlp` are both true for `cfgC1`, refuting
"never both enabled". -/
theorem C1_counterexample :
    (mkMLP cfgC1).checkpoint_mlp = true
    ∧ (mkMLP cfgC1).recompute_non_linear_layer_in_mlp = true := by
  exact ⟨by decide, rfl⟩

/-- C1 (amended): the two recomputation toggles are derived independently
from the configuration at construction — `checkpoint_mlp` holds exactly when
the granularity is one of the two selective values, and the non-linear-only
toggle copies the configuration flag; nothing prevents both being enabled in
the same instance. -/
theorem C1_toggles_independent (cfg : TransformerConfig) :
    (mkMLP cfg).checkpoint_mlp
      = (cfg.recompute_granularity == some "selective_mlp_only"
         || cfg.recompute_granularity == some "selective_both")
    ∧ (mkMLP cfg).recompute_non_linear_layer_in_mlp
      = cfg.recompute_non_linear_layer_in_mlp :=
  ⟨rfl, rfl⟩

/-- A configuration with a non-selective granularity value. -/
def cfgC10 : TransformerConfig :=
  ⟨1, 1, false, false, .gelu, false, some "full", false,
   fun _ _ => 1, fun _ _ => 1⟩

/-- C10: `checkpoint_mlp` is enabled iff the configured granularity is the
string "selective_mlp_only" or the string "selective_both"; with it disabled,
`forward` delegates directly to `_forward`. -/
theorem C10_checkpoint_mlp_iff (cfg : TransformerConfig) :
    ((mkMLP cfg).checkpoint_mlp = true ↔
      (cfg.recompute_granularity = some "selective_mlp_only"
       ∨ cfg.recompute_granularity = some "selective_both"))
    ∧ ((mkMLP cfg).checkpoint_mlp = false →
        ∀ (geluFn : ℚ → ℚ) (h : Tensor3),
          (mkMLP cfg).forward geluFn h
            = (mkMLP cfg).forwardImpl geluFn h) := by
  constructor
  · show ((cfg.recompute_granularity == some "selective_mlp_only"
        || cfg.recompute_granularity == some "selective_both") = true ↔ _)
    simp [Bool.or_eq_true]
  · intro hc geluFn h
    unfold MLP.forward
    simp [hc]

/-- Witness for C10 at the concrete configuration `cfgC10` (granularity
"full" leaves the full-MLP recompute path disabled). -/
theorem C10_witness :
    (mkMLP cfgC10).forward (fun x => x) [[[1]]]
      = (mkMLP cfgC10).forwardImpl (fun x => x) [[[1]]] :=
  (C10_checkpoint_mlp_iff cfgC10).2 (by decide) (fun x => x) [[[1]]]

/-- A gated configuration with a non-GELU activation. -/
def cfgC3 : TransformerConfig :=
  ⟨2, 2, true, false, .custom (fun x => x + 1), false, none, false,
   fun _ _ => 1, fun _ _ => 1⟩

/-- C3: with gating enabled, the constructed instance binds the `glu`
closure, and on an even-width vector the closure splits it into two equal
halves along the last axis, applies the configured activation to the first
half only, and multiplies elementwise by the unactivated second half. -/
theorem C3_glu_split (geluFn : ℚ → ℚ) (cfg : TransformerConfig) (v : List ℚ)
    (n : ℕ) (hg : cfg.gated_linear_unit = true) (hv : v.length = 2 * n) :
    (mkMLP cfg).activation_func = .gluClosure cfg.activation_func
    ∧ glu geluFn cfg.activation_func v
      = List.zipWith (fun a b => a * b)
          ((v.take n).map (cfg.activation_func.eval geluFn)) (v.drop n) := by
  constructor
  · simp [mkMLP, hg]
  · have hk : (v.length + 1) / 2 = n := by omega
    simp [glu, chunk2, hk]

/-- Witness for C3 on the vector [1, 2, 3, 4] under `cfgC3`. -/
theorem C3_witness :
    (mkMLP cfgC3).activation_func = .gluClosure cfgC3.activation_func
    ∧ glu (fun x => x) cfgC3.activation_func [1, 2, 3, 4]
      = List.zipWith (fun a b => a * b)
          (([(1 : ℚ), 2, 3, 4].take 2).map
            (cfgC3.activation_func.eval (fun x => x)))
          ([(1 : ℚ), 2, 3, 4].drop 2) :=
  C3_glu_split (fun x => x) cfgC3 [1, 2, 3, 4] 2 rfl rfl

/-- A gated configuration with feed-forward width 2. -/
def cfgC4 : TransformerConfig :=
  ⟨3, 2, true, true, .gelu, false, none, false,
   fun _ _ => 1, fun _ _ => 1⟩

/-- C4: with gating enabled, fc1 is built with output width twice the
configured feed-forward width, fc2 is built with input width the undoubled
feed-forward width, and gating a vector of the doubled width yields the
feed-forward width. -/
theorem C4_gated_widths (geluFn : ℚ → ℚ) (cfg : TransformerConfig)
    (hg : cfg.gated_linear_unit = true) :
    (mkMLP cfg).linear_fc1.output_size = 2 * cfg.ffn_hidden_size
    ∧ (mkMLP cfg).linear_fc2.input_size = cfg.ffn_hidden_size
    ∧ ∀ v : List ℚ, v.length = 2 * cfg.ffn_hidden_size →
        (glu geluFn cfg.activation_func v).length = cfg.ffn_hidden_size := by
  refine ⟨?_, rfl, ?_⟩
  · simp [mkMLP, ParallelLinear.make, hg]
  · intro v hv
    simp only [glu, chunk2, List.length_zipWith, List.length_map,
      List.length_take, List.length_drop, hv]
    omega

/-- Witness for C4 on the vector [1, 2, 3, 4] under `cfgC4`
(feed-forward width 2, doubled to 4). -/
theorem C4_witness :
    (glu (fun x => x) cfgC4.activation_func [1, 2, 3, 4]).length
      = cfgC4.ffn_hidden_size :=
  (C4_gated_widths (fun x => x) cfgC4 rfl).2.2 [1, 2, 3, 4] rfl

/-- C2: with the fused kernel configured, the nonlinearity stage returns the
fused `bias_gelu_impl` result exactly when biases are enabled and the bound
activation is identically `F.gelu`; if either condition fails, every forward
call fails with an assertion error instead of computing an output. -/
theorem C2_fused_path (geluFn : ℚ → ℚ) (m : MLP) (x : Tensor3) (b : List ℚ)
    (hfus : m.config.bias_gelu_fusion = true) :
    (m.config.add_bias_linear = true → m.activation_func.isFGelu = true →
        apply_non_linear geluFn m x (some b)
          = .ok (bias_gelu_impl geluFn x b))
    ∧ ((m.config.add_bias_linear = false ∨ m.activation_func.isFGelu = false) →
        ∀ (h : Tensor3), ∃ e, m.forward geluFn h = .error e) := by
  constructor
  · intro hb hg
    simp [apply_non_linear, hfus, hb, hg]
  · intro hbad h
    rcases hbad with hb | hg
    · exact ⟨"assertion failed: self.config.add_bias_linear is True",
        forward_error geluFn m h _ (fun x bp => by
          simp [apply_non_linear, hfus, hb])⟩
    · cases hb : m.config.add_bias_linear with
      | false => exact ⟨"assertion failed: self.config.add_bias_linear is True",
          forward_error geluFn m h _ (fun x bp => by
            simp [apply_non_linear, hfus, hb])⟩
      | true => exact ⟨"assertion failed: self.activation_func == F.gelu",
          forward_error geluFn m h _ (fun x bp => by
            simp [apply_non_linear, hfus, hb, hg])⟩

/-- A non-gated configuration selecting the fused kernel with biases and the
standard GELU. -/
def cfgC2 : TransformerConfig :=
  ⟨1, 1, false, true, .gelu, true, none, false,
   fun _ _ => 1, fun _ _ => 1⟩

/-- Witness for C2: under `cfgC2` the stage takes the fused path. -/
theorem C2_witness :
    apply_non_linear (fun x => x) (mkMLP cfgC2) [[[1]]] (some [1])
      = .ok (bias_gelu_impl (fun x => x) [[[1]]] [1]) :=
  (C2_fused_path (fun x => x) (mkMLP cfgC2) [[[1]]] [1] rfl).1 rfl rfl

/-- C9: with gating and the fused kernel both enabled, every forward call
raises an assertion error — the gated construction binds the `glu` closure,
which is never identically `F.gelu`, so one of the two asserts always
fails. -/
theorem C9_gated_fused_raises (geluFn : ℚ → ℚ) (cfg : TransformerConfig)
    (h : Tensor3) (hg : cfg.gated_linear_unit = true)
    (hf : cfg.bias_gelu_fusion = true) :
    ∃ e, (mkMLP cfg).forward geluFn h = .error e := by
  have hact : (mkMLP cfg).activation_func.isFGelu = false := by
    simp [mkMLP, hg, InstActivation.isFGelu]
  cases hb : cfg.add_bias_linear with
  | false => exact ⟨"assertion failed: self.config.add_bias_linear is True",
      forward_error geluFn (mkMLP cfg) h _ (fun x bp => by
        simp [apply_non_linear, mkMLP, hf, hb])⟩
  | true => exact ⟨"assertion failed: self.activation_func == F.gelu",
      forward_error geluFn (mkMLP cfg) h _ (fun x bp => by
        simp [apply_non_linear, mkMLP, hf, hb, hg, InstActivation.isFGelu])⟩

/-- A configuration with gating and the fused kernel both enabled, and the
configured activation exactly the standard GELU. -/
def cfgC9 : TransformerConfig :=
  ⟨1, 1, true, true, .gelu, true, none, false,
   fun _ _ => 1, fun _ _ => 1⟩

/-- Witness for C9: even with `activation_func = F.gelu` in the
configuration, the gated fused instance fails on a concrete input. -/
theorem C9_witness :
    ∃ e, (mkMLP cfgC9).forward (fun x => x) [[[1]]] = .error e :=
  C9_gated_fused_raises (fun x => x) cfgC9 [[[1]]] rfl rfl

/-- C5: forward with the recomputation toggles as configured returns exactly
the result of forward with both toggles disabled, for every state and input:
the checkpointed paths are observationally equivalent to the direct path. -/
theorem C5_recompute_transparent (geluFn : ℚ → ℚ) (m : MLP) (h : Tensor3) :
    m.forward geluFn h = m.togglesOff.forward geluFn h := by
  rw [forward_eq_impl, forward_eq_impl]
  exact forwardImpl_togglesOff geluFn m h

/-- C6: on the full-MLP recompute path, forward always hands the caller a
two-element pair: a bare checkpointed result is normalized to
`(result, none)`, and a two-element result is passed through with its bias
wrapped as present. -/
theorem C6_arity_normalized (geluFn : ℚ → ℚ) (m : MLP) (h : Tensor3)
    (hc : m.checkpoint_mlp = true) :
    (∀ o, checkpoint (m.customFunction geluFn) false h
            = .ok (.single o) →
          m.forward geluFn h = .ok (o, none))
    ∧ (∀ o b, checkpoint (m.customFunction geluFn) false h
            = .ok (.pair o b) →
          m.forward geluFn h = .ok (o, some b)) := by
  constructor
  · intro o hs
    unfold MLP.forward
    rw [if_pos hc, hs]
  · intro o b hs
    unfold MLP.forward
    rw [if_pos hc, hs]

/-- A configuration with no biases and the full-MLP recompute gate enabled
via granularity "selective_both". -/
def cfgC6 : TransformerConfig :=
  ⟨1, 1, false, false, .custom (fun x => x), false, some "selective_both",
   false, fun _ _ => 1, fun _ _ => 1⟩

/-- Witness for C6: with biases disabled the checkpointed function returns a
bare tensor and forward yields `(tensor, none)` on a concrete input. -/
theorem C6_witness :
    (mkMLP cfgC6).forward (fun x => x) [[[2]]] = .ok ([[[2]]], none) :=
  ((C6_arity_normalized (fun x => x) (mkMLP cfgC6) [[[2]]] (by decide)).1)
    [[[2]]] (by
      simp [checkpoint, MLP.customFunction, MLP.forwardImpl, mkMLP, cfgC6,
        ParallelLinear.make, ParallelLinear.forward, apply_non_linear,
        InstActivation.apply, ActivationFunc.eval, matvec, dot, addBias,
        checkpoint2, List.range_succ])

/-- C7: on the non-fused path the stage skips bias addition when the bias is
absent, applying the bound activation directly, and adds the bias before the
activation when it is present. -/
theorem C7_nonfused_bias (geluFn : ℚ → ℚ) (m : MLP) (x : Tensor3)
    (hnf : m.config.bias_gelu_fusion = false) :
    apply_non_linear geluFn m x none
      = .ok (m.activation_func.apply geluFn x)
    ∧ ∀ bv, apply_non_linear geluFn m x (some bv)
      = .ok (m.activation_func.apply geluFn (addBias x bv)) := by
  constructor
  · simp [apply_non_linear, hnf]
  · intro bv
    simp [apply_non_linear, hnf]

/-- A non-fused configuration with a custom activation. -/
def cfgC7 : TransformerConfig :=
  ⟨1, 1, false, false, .custom (fun x => 2 * x), false, none, false,
   fun _ _ => 1, fun _ _ => 1⟩

/-- Witness for C7: with an absent bias the activation is applied directly
to the concrete intermediate. -/
theorem C7_witness :
    apply_non_linear (fun x => x) (mkMLP cfgC7) [[[3]]] none
      = .ok ((mkMLP cfgC7).activation_func.apply (fun x => x) [[[3]]]) :=
  (C7_nonfused_bias (fun x => x) (mkMLP cfgC7) [[[3]]] rfl).1

/-- Bias addition preserves the outer grid. -/
theorem isGrid_addBias (x : Tensor3) (bias : List ℚ) (s b : ℕ) :
    isGrid (addBias x bias) s b = isGrid x s b :=
  isGrid_map_map _ x s b

/-- Applying the bound activation object preserves the outer grid. -/
theorem isGrid_instApply (geluFn : ℚ → ℚ) (a : InstActivation) (x : Tensor3)
    (s b : ℕ) :
    isGrid (a.apply geluFn x) s b = isGrid x s b := by
  cases a <;> exact isGrid_map_map _ x s b

/-- The fused bias+GELU kernel preserves the outer grid. -/
theorem isGrid_bias_gelu_impl (geluFn : ℚ → ℚ) (x : Tensor3) (bias : List ℚ)
    (s b : ℕ) :
    isGrid (bias_gelu_impl geluFn x bias) s b = isGrid x s b := by
  rw [bias_gelu_impl, isGrid_map_map, isGrid_addBias]

/-- Whatever branch the nonlinearity stage takes, a successful result keeps
the outer grid of its input. -/
theorem apply_non_linear_grid (geluFn : ℚ → ℚ) (m : MLP) (x : Tensor3)
    (bp : Option (List ℚ)) (ip : Tensor3) (s b : ℕ)
    (hap : apply_non_linear geluFn m x bp = .ok ip)
    (hx : isGrid x s b = true) : isGrid ip s b = true := by
  unfold apply_non_linear at hap
  split at hap
  · split at hap
    · split at hap
      · cases bp with
        | some bv =>
          simp only [Except.ok.injEq] at hap
          rw [← hap, isGrid_bias_gelu_impl]
          exact hx
        | none => exact absurd hap (by simp)
      · exact absurd hap (by simp)
    · exact absurd hap (by simp)
  · simp only [Except.ok.injEq] at hap
    rw [← hap, isGrid_instApply]
    cases bp with
    | some bv => rw [isGrid_addBias]; exact hx
    | none => exact hx

/-- C8: on any configuration and shaped input where forward succeeds, the
output keeps the input shape [s, b, hidden_size], and the returned bias is
present exactly when `add_bias_linear` is configured. -/
theorem C8_shape (geluFn : ℚ → ℚ) (cfg : TransformerConfig) (h : Tensor3)
    (s b : ℕ) (o : Tensor3) (ob : Option (List ℚ))
    (hgate : cfg.gated_linear_unit = false)
    (hsh : isShape h s b cfg.hidden_size = true)
    (hf : (mkMLP cfg).forward geluFn h = .ok (o, ob)) :
    isShape o s b cfg.hidden_size = true
    ∧ ob.isSome = cfg.add_bias_linear := by
  rw [forward_eq_impl] at hf
  obtain ⟨ip, hap, ho, hob⟩ := forwardImpl_ok geluFn (mkMLP cfg) h o ob hf
  simp only [isShape, Bool.and_eq_true] at hsh
  have hgrid_h : isGrid h s b = true := hsh.1
  have hgrid1 : isGrid ((mkMLP cfg).linear_fc1.forward h).1 s b = true := by
    show isGrid (h.map _) s b = true
    rw [isGrid_map_map]
    exact hgrid_h
  have hgrid_ip : isGrid ip s b = true :=
    apply_non_linear_grid geluFn (mkMLP cfg) _ _ ip s b hap hgrid1
  constructor
  · rw [ho]
    simp only [isShape, Bool.and_eq_true]
    constructor
    · show isGrid (ip.map _) s b = true
      rw [isGrid_map_map]
      exact hgrid_ip
    · have hW : (mkMLP cfg).linear_fc2.weight.length = cfg.hidden_size := by
        simp [mkMLP, ParallelLinear.make]
      have hin := innermostAll_matvec ((mkMLP cfg).linear_fc2.weight) ip
      rw [hW] at hin
      exact hin
  · rw [hob]
    show (if (mkMLP cfg).linear_fc2.bias then
      some (mkMLP cfg).linear_fc2.bias_vec else none).isSome
        = cfg.add_bias_linear
    cases hab : cfg.add_bias_linear <;>
      simp [mkMLP, ParallelLinear.make, hab]

/-- A non-gated configuration with biases, hidden width 1. -/
def cfgC8 : TransformerConfig :=
  ⟨1, 1, false, true, .custom (fun x => x), false, none, false,
   fun _ _ => 1, fun _ _ => 1⟩

/-- Witness for C8: a concrete forward run under `cfgC8` keeps the input
shape [1, 1, 1] and returns a present bias. -/
theorem C8_witness :
    isShape [[[(1 : ℚ)]]] 1 1 cfgC8.hidden_size = true
    ∧ (some [(0 : ℚ)]).isSome = cfgC8.add_bias_linear :=
  C8_shape (fun x => x) cfgC8 [[[1]]] 1 1 [[[1]]] (some [0]) rfl (by decide)
    (by
      simp [MLP.forward, MLP.forwardImpl, mkMLP, cfgC8, ParallelLinear.make,
        ParallelLinear.forward, apply_non_linear, InstActivation.apply,
        ActivationFunc.eval, matvec, dot, addBias, checkpoint2,
        List.range_succ])
